import Mathlib

/-!
aliocode/golib: a verification development

Shallow embedding of three packages of the repository:

* `libcloser` (closer.go): the graceful-shutdown coordinator `Closer`, as a labelled
  transition system whose steps are the atomic actions of its goroutines;
* `libconfig` (config.go): `mergeConfigWithPriority` and `isZeroValue` over a model of
  the values `reflect` walks;
* `libmode` (mode.go): `NewModeFromString` and `GetMode` over the package variable
  `appMode`, passed explicitly.

Go's `int` is taken to be 64 bits wide, `time.Duration` is an `int64` number of
nanoseconds.
-/

namespace strconv

/-- The two errors of Go's strconv: `ErrSyntax` and `ErrRange`. -/
inductive NumError where
  | ErrSyntax
  | ErrRange
  deriving DecidableEq, Repr

deriving instance DecidableEq for Except

/-- The digit loop of `strconv.ParseUint(s, 10, 64)`: `n` is the value read so far.
A byte that is not `0`..`9` is a syntax error; a value that leaves `uint64` is a range
error, reported at the digit where it happens. -/
def parseUintLoop : List Char → Nat → Except NumError Nat
  | [], n => .ok n
  | c :: cs, n =>
    if c.isDigit then
      if n ≥ (2 ^ 64 - 1) / 10 + 1 then .error .ErrRange
      else
        let n1 := n * 10 + (c.toNat - 48)
        if n1 > 2 ^ 64 - 1 then .error .ErrRange else parseUintLoop cs n1
    else .error .ErrSyntax

/-- Go's `strconv.ParseUint(s, 10, 64)`, on the bytes of `s`. -/
def ParseUint (s : List Char) : Except NumError Nat :=
  match s with
  | [] => .error .ErrSyntax
  | _ => parseUintLoop s 0

/-- Go's `strconv.ParseInt(s, 10, 0)` with a 64-bit `int`: an optional sign, then
`ParseUint`, then the range check against `1 << 63`. -/
def ParseInt (s : List Char) : Except NumError Int :=
  match s with
  | [] => .error .ErrSyntax
  | c :: cs =>
    let neg := c == '-'
    let rest := if c == '+' || c == '-' then cs else c :: cs
    match ParseUint rest with
    | .error .ErrSyntax => .error .ErrSyntax
    | .error .ErrRange => .error .ErrRange
    | .ok un =>
      if !neg && un ≥ 2 ^ 63 then .error .ErrRange
      else if neg && un > 2 ^ 63 then .error .ErrRange
      else .ok (if neg then -(un : Int) else (un : Int))

/-- Go's `strconv.Atoi`: base-10 `ParseInt` at the width of `int` (the fast path of
the library for short strings computes the same result). -/
def Atoi (s : String) : Except NumError Int :=
  ParseInt s.data

end strconv

namespace libcloser

/-- The constant `defaultGracefulTimeout` of closer.go. -/
def defaultGracefulTimeout : Int := 5

/-- Go's `time.Second`, in nanoseconds. -/
def Second : Int := 1000000000

/-- Two's-complement wrap of an integer into the range of `int64`. -/
def wrapInt64 (x : Int) : Int :=
  (x + 2 ^ 63) % 2 ^ 64 - 2 ^ 63

/-- The expression `time.Duration(d) * time.Second`: an `int64` product. -/
def durationSeconds (d : Int) : Int :=
  wrapInt64 (d * Second)

/-- What the `Close` method of a registered `io.Closer` does when it is called. -/
inductive CloseResult where
  | returnsNil
  | returnsError (msg : String)
  | neverReturns
  deriving DecidableEq, Repr

/-- A registered `io.Closer`, identified by a label, with the behaviour of `Close`. -/
structure IoCloser where
  label : String
  close : CloseResult
  deriving DecidableEq, Repr

/-- A registered `func()`, identified by a label; `returns = false` is a function
that never returns. -/
structure CloseFunc where
  label : String
  returns : Bool
  deriving DecidableEq, Repr

/-- A shutdown action as `drop` starts it: a closer or a plain function. -/
inductive Job where
  | closer (cl : IoCloser)
  | func (cf : CloseFunc)
  deriving DecidableEq, Repr

/-- Whether the call of the action ever returns. -/
def Job.returns : Job → Bool
  | .closer cl => decide (cl.close ≠ .neverReturns)
  | .func cf => cf.returns

/-- What the goroutine of the action writes to the logger when the call returns:
one error line for a closer whose `Close` returned an error, nothing otherwise. -/
def Job.errorLog : Job → List String
  | .closer ⟨_, .returnsError msg⟩ => ["failed to close: " ++ msg]
  | _ => []

/-- The state of a `sync.Once`: not yet used, inside its function, or finished. -/
inductive OnceState where
  | fresh
  | running
  | complete
  deriving DecidableEq, Repr

/-- The struct `Closer` of closer.go together with the locals of the one run of the
body of `drop`, and four counters that record what has happened.

* `once`, `locked`, `closers`, `closeFuncs`, `gracefulTimeout`: the fields of the
  struct (`locked` is the embedded mutex);
* `done`: how many values the channel `done` (capacity 1) holds;
* `sigListening`, `ctxListening`: whether the two goroutines of `NewCloser` are still
  blocked on their channel;
* `goroutines`, `wg`, `chGracefulJobClose`, `chTimeoutJobClose`: the locals of `drop`:
  each started action with its finished flag, the wait-group counter, whether the
  graceful channel is closed, whether the timer channel has delivered;
* `logged`: the lines written to the logger;
* `bodyRuns`, `invoked`, `doneSends`, `received`: how often the body of `drop` ran, the
  calls made to registered actions, the sends on `done`, the receives from `done`. -/
structure Closer where
  once : OnceState
  locked : Bool
  closers : List IoCloser
  closeFuncs : List CloseFunc
  gracefulTimeout : Int
  done : Nat
  sigListening : Bool
  ctxListening : Bool
  goroutines : List (Job × Bool)
  wg : Nat
  chGracefulJobClose : Bool
  chTimeoutJobClose : Bool
  logged : List String
  bodyRuns : Nat
  invoked : List Job
  doneSends : Nat
  received : Nat
  deriving DecidableEq, Repr

/-- The constructor `NewCloser`: `Atoi` on the string, the default on any error, and a
fresh coordinator with both listener goroutines waiting. It has no error result. -/
def NewCloser (gracefulTimeout : String) : Closer :=
  let d : Int :=
    match strconv.Atoi gracefulTimeout with
    | .ok d => d
    | .error _ => defaultGracefulTimeout
  { once := .fresh
    locked := false
    closers := []
    closeFuncs := []
    gracefulTimeout := durationSeconds d
    done := 0
    sigListening := true
    ctxListening := true
    goroutines := []
    wg := 0
    chGracefulJobClose := false
    chTimeoutJobClose := false
    logged := []
    bodyRuns := 0
    invoked := []
    doneSends := 0
    received := 0 }

/-- The method `drop` from its entry to the `select`: `once.Do` runs the body only on a
fresh `sync.Once`. The body takes the lock, starts one goroutine for each closer and
for each function (`wg.Add(1)` each), starts the goroutine that waits on the wait
group, arms the timer, writes its log line and stops at the `select`. A goroutine
calls its action as soon as it is started: creating it and calling `Close` (or the
function) are one step. On a `sync.Once` that is in use or finished the call does
nothing to the state (in Go it returns once the running body has returned). -/
def drop (s : Closer) : Closer :=
  match s.once with
  | .fresh =>
    let jobs := s.closers.map Job.closer ++ s.closeFuncs.map Job.func
    { s with
      once := .running
      locked := true
      goroutines := jobs.map (fun j => (j, false))
      wg := jobs.length
      chGracefulJobClose := false
      chTimeoutJobClose := false
      logged := s.logged ++ ["waiting before terminate or end up earlier if funcs are ready"]
      bodyRuns := s.bodyRuns + 1
      invoked := s.invoked ++ jobs }
  | _ => s

/-- The statement `s.done <- struct` followed by the return of the body of `drop`: a
send on a channel of capacity 1 goes through only when the channel holds no value
(`none`: the sender blocks); then the deferred `Unlock` runs and the `sync.Once` is
finished. `line` is the log line of the branch taken. -/
def sendDone (s : Closer) (line : String) : Option Closer :=
  if s.done < 1 then
    some { s with
      logged := s.logged ++ [line]
      done := s.done + 1
      doneSends := s.doneSends + 1
      locked := false
      once := .complete }
  else none

/-- The atomic steps of the goroutines around one `Closer`.

* `AddCloser`, `AddFunc`, `Close`, `Wait`: calls of the public methods (`Wait` also
  stands for a receive on the channel returned by `GetWaitChan`);
* `signal`, `ctxDone`: the listener goroutine of `NewCloser` wakes up and calls `drop`;
* `jobReturns i`: the call made by the `i`-th goroutine of `drop` returns;
* `wgWait`: `wg.Wait()` returns in the waiting goroutine, which closes
  `chGracefulJobClose`;
* `timer`: the channel of `time.After` delivers;
* `selectGraceful`, `selectTimeout`: the `select` of `drop` takes that branch. -/
inductive Event where
  | AddCloser (cl : IoCloser)
  | AddFunc (cf : CloseFunc)
  | Close
  | signal
  | ctxDone
  | jobReturns (i : Nat)
  | wgWait
  | timer
  | selectGraceful
  | selectTimeout
  | Wait
  deriving DecidableEq, Repr

/-- The three ways into `drop`: the manual `Close` and the two listeners. -/
def Event.isTrigger : Event → Bool
  | .Close => true
  | .signal => true
  | .ctxDone => true
  | _ => false

/-- One step of the system; `none` when the step cannot be taken in `s` (its goroutine
is blocked, or does not exist). -/
def step (s : Closer) : Event → Option Closer
  | .AddCloser cl =>
    if s.locked then none else some { s with closers := s.closers ++ [cl] }
  | .AddFunc cf =>
    if s.locked then none else some { s with closeFuncs := s.closeFuncs ++ [cf] }
  | .Close => some (drop s)
  | .signal =>
    if s.sigListening then
      some (drop { s with
        sigListening := false
        logged := s.logged ++ ["received syscall signal"] })
    else none
  | .ctxDone =>
    if s.ctxListening then
      some (drop { s with
        ctxListening := false
        logged := s.logged ++ ["received context cancellation"] })
    else none
  | .jobReturns i =>
    match s.goroutines[i]? with
    | some (j, false) =>
      if j.returns then
        some { s with
          goroutines := s.goroutines.set i (j, true)
          logged := s.logged ++ j.errorLog
          wg := s.wg - 1 }
      else none
    | _ => none
  | .wgWait =>
    if s.once ≠ .fresh ∧ s.wg = 0 ∧ s.chGracefulJobClose = false then
      some { s with chGracefulJobClose := true }
    else none
  | .timer =>
    if s.once ≠ .fresh ∧ s.chTimeoutJobClose = false then
      some { s with chTimeoutJobClose := true }
    else none
  | .selectGraceful =>
    if s.once = .running ∧ s.chGracefulJobClose = true then
      sendDone s "jobs are gracefully closed"
    else none
  | .selectTimeout =>
    if s.once = .running ∧ s.chTimeoutJobClose = true then
      sendDone s "jobs are not closed due to timeout"
    else none
  | .Wait =>
    if 0 < s.done then
      some { s with done := s.done - 1, received := s.received + 1 }
    else none

/-- A schedule: the steps are taken in order; a step that cannot be taken leaves the
state as it is (the goroutine stays where it was). -/
def run (s : Closer) (es : List Event) : Closer :=
  es.foldl (fun st e => (step st e).getD st) s

/-- The closers among a list of registrations, in order. -/
def closersOf : List Job → List IoCloser
  | [] => []
  | .closer cl :: js => cl :: closersOf js
  | .func _ :: js => closersOf js

/-- The plain functions among a list of registrations, in order. -/
def funcsOf : List Job → List CloseFunc
  | [] => []
  | .closer _ :: js => funcsOf js
  | .func cf :: js => cf :: funcsOf js

/-- How many of the started goroutines have not finished their call. -/
def unfinished (gs : List (Job × Bool)) : Nat :=
  (gs.filter (fun g => !g.2)).length

end libcloser

namespace libmode

/-- The type `Mode` of mode.go: a string. -/
abbrev Mode := String

/-- The constant `ServiceModeUnknown`. -/
def ServiceModeUnknown : Mode := "UNKNOWN"

/-- The constant `ServiceModeProd`. -/
def ServiceModeProd : Mode := "PROD"

/-- The constant `ServiceModeDev`. -/
def ServiceModeDev : Mode := "DEV"

/-- The constant `ServiceModeMock`. -/
def ServiceModeMock : Mode := "MOCK"

/-- The constant `ServiceModeLocal`. -/
def ServiceModeLocal : Mode := "LOCAL"

/-- The errors of the package: the variable `ErrWrongModeSyntax`. -/
inductive ModeError where
  | ErrWrongModeSyntax
  deriving DecidableEq, Repr

/-- The initial value of the package variable `appMode`. -/
def appModeInit : Mode := ServiceModeProd

/-- The function `NewModeFromString`. `ToUpper` stands for Go's `strings.ToUpper`;
`appMode` is the package variable before the call. The result is the pair the Go
function returns (`none` for a nil error) and the package variable after the call. -/
def NewModeFromString (ToUpper : String → String) (appMode : Mode) (mode : String) :
    (Mode × Option ModeError) × Mode :=
  let upperMode := ToUpper mode
  if upperMode = ServiceModeProd then ((ServiceModeProd, none), ServiceModeProd)
  else if upperMode = ServiceModeDev then ((ServiceModeDev, none), ServiceModeDev)
  else if upperMode = ServiceModeMock then ((ServiceModeMock, none), ServiceModeMock)
  else if upperMode = ServiceModeLocal then ((ServiceModeLocal, none), ServiceModeLocal)
  else ((ServiceModeUnknown, some .ErrWrongModeSyntax), appMode)

/-- The function `GetMode`: the package variable. -/
def GetMode (appMode : Mode) : Mode := appMode

/-- Go's `strings.ToUpper` on a string of ASCII characters: `a`..`z` become `A`..`Z`. -/
def asciiToUpper (s : String) : String :=
  String.mk (s.data.map Char.toUpper)

end libmode

namespace libconfig

mutual
/-- A value as `reflect` presents it, by the cases of the switch in `isZeroValue`:
`bool`; `int` for the kinds Int..Int64; `uint` for Uint..Uintptr; `float` for Float32
and Float64 and `complex` for Complex64 and Complex128, each floating-point number
given by the IEEE-754 bit pattern of the `float64` that `v.Float()` and `v.Complex()`
return (sign in bit 63); `string`; `nil` and `ref` for a nil and a non-nil Interface,
Ptr, Slice, Map or Chan (with what it holds); `array`; `struct`; `func` for the kinds
of the default case (Func, UnsafePointer), `none` being nil. -/
inductive Value where
  | bool (b : Bool)
  | int (n : Int)
  | uint (n : Nat)
  | float (bits : Nat)
  | complex (re im : Nat)
  | string (s : String)
  | nil
  | ref (content : Values)
  | array (elems : Values)
  | struct (fields : Fields)
  | func (code : Option String)
/-- A sequence of values: the elements of an array, the contents of a reference. -/
inductive Values where
  | nil
  | cons (v : Value) (vs : Values)
/-- The fields of a struct in declaration order: name, whether the field is exported,
and its value. -/
inductive Fields where
  | nil
  | cons (name : String) (exported : Bool) (v : Value) (fs : Fields)
end

/-- The bit pattern of the floating-point number `-0.0`: only the sign bit is set. -/
def negativeZeroBits : Nat := 9223372036854775808

/-- The comparison `f == 0` of Go on a `float64` given by its bits: true of `0.0` and
of `-0.0`, false of every other number, of the infinities and of NaN. -/
def floatIsZero (bits : Nat) : Bool :=
  bits == 0 || bits == negativeZeroBits

mutual
/-- The function `isZeroValue`. -/
def isZeroValue : Value → Bool
  | .bool b => !b
  | .int n => n == 0
  | .uint n => n == 0
  | .float bits => floatIsZero bits
  | .complex re im => floatIsZero re && floatIsZero im
  | .string s => s == ""
  | .nil => true
  | .ref _ => false
  | .array elems => isZeroElems elems
  | .struct fields => isZeroFields fields
  | .func code => code.isNone
/-- The loop of the Array case of `isZeroValue`. -/
def isZeroElems : Values → Bool
  | .nil => true
  | .cons v vs => if !isZeroValue v then false else isZeroElems vs
/-- The loop of the Struct case of `isZeroValue`: only exported fields are looked at. -/
def isZeroFields : Fields → Bool
  | .nil => true
  | .cons _ exported v fs =>
    if exported && !isZeroValue v then false else isZeroFields fs
end

/-- The loop of `mergeConfigWithPriority` over the fields of the base and, at the same
index, of the override: an unexported field and a field whose override is zero keep
the base value, any other field takes the whole override value. Both structs have the
same Go type, hence the same fields. -/
def mergeFields : Fields → Fields → Fields
  | .cons name exported b bs, .cons _ _ o os =>
    .cons name exported
      (if !exported then b else if isZeroValue o then b else o)
      (mergeFields bs os)
  | bs, _ => bs

/-- The function `mergeConfigWithPriority`: a base that is not a struct is returned as
it is. -/
def mergeConfigWithPriority (base override : Value) : Value :=
  match base, override with
  | .struct bs, .struct os => .struct (mergeFields bs os)
  | _, _ => base

/-- The errors of `NewConfig`: `ErrConfigFile` and `ErrConfigEnv`, joined with the
error of the loader. -/
inductive ConfigError where
  | ErrConfigFile (cause : String)
  | ErrConfigEnv (cause : String)
  deriving DecidableEq, Repr

/-- The function `NewConfig`. `zero` is the zero value of the type parameter `T`;
`loadFromTOML` and `loadFromEnv` stand for the two loaders (file system, TOML decoder
and environment are outside the repository) and return Go pairs, as does the
function. -/
def NewConfig (zero : Value) (loadFromTOML : String → Value × Option String)
    (loadFromEnv : Value × Option String) (filePath : String) : Value × Option ConfigError :=
  let toml : Value × Option String := if filePath ≠ "" then loadFromTOML filePath else (zero, none)
  match toml with
  | (cfgToml, some e) => (cfgToml, some (.ErrConfigFile e))
  | (cfgToml, none) =>
    match loadFromEnv with
    | (cfgEnv, some e) => (cfgEnv, some (.ErrConfigEnv e))
    | (cfgEnv, none) => (mergeConfigWithPriority cfgToml cfgEnv, none)

mutual
/-- The zero value of the Go type of a value. -/
def zeroOf : Value → Value
  | .bool _ => .bool false
  | .int _ => .int 0
  | .uint _ => .uint 0
  | .float _ => .float 0
  | .complex _ _ => .complex 0 0
  | .string _ => .string ""
  | .nil => .nil
  | .ref _ => .nil
  | .array elems => .array (zeroOfElems elems)
  | .struct fields => .struct (zeroOfFields fields)
  | .func _ => .func none
/-- The zero values of the elements of an array. -/
def zeroOfElems : Values → Values
  | .nil => .nil
  | .cons v vs => .cons (zeroOf v) (zeroOfElems vs)
/-- The zero values of the fields of a struct. -/
def zeroOfFields : Fields → Fields
  | .nil => .nil
  | .cons name exported v fs => .cons name exported (zeroOf v) (zeroOfFields fs)
end

mutual
/-- Every field of every struct inside the value, at any depth of structs and arrays,
is exported. -/
def exportedOnly : Value → Bool
  | .array elems => exportedOnlyElems elems
  | .struct fields => exportedOnlyFields fields
  | _ => true
/-- The same for the elements of an array. -/
def exportedOnlyElems : Values → Bool
  | .nil => true
  | .cons v vs => exportedOnly v && exportedOnlyElems vs
/-- The same for the fields of a struct. -/
def exportedOnlyFields : Fields → Bool
  | .nil => true
  | .cons _ exported v fs => exported && exportedOnly v && exportedOnlyFields fs
end

mutual
/-- No floating-point number inside the value, at any depth of structs and arrays, is
the negative zero. -/
def noNegativeZero : Value → Bool
  | .float bits => bits != negativeZeroBits
  | .complex re im => re != negativeZeroBits && im != negativeZeroBits
  | .array elems => noNegativeZeroElems elems
  | .struct fields => noNegativeZeroFields fields
  | _ => true
/-- The same for the elements of an array. -/
def noNegativeZeroElems : Values → Bool
  | .nil => true
  | .cons v vs => noNegativeZero v && noNegativeZeroElems vs
/-- The same for the fields of a struct. -/
def noNegativeZeroFields : Fields → Bool
  | .nil => true
  | .cons _ _ v fs => noNegativeZero v && noNegativeZeroFields fs
end

/-- The value of the field called `name`, if the struct has one. -/
def Fields.lookup : Fields → String → Option Value
  | .nil, _ => none
  | .cons n _ v fs, name => if n = name then some v else fs.lookup name

/-- The field `name` of a struct value. -/
def Value.field : Value → String → Option Value
  | .struct fs, name => fs.lookup name
  | _, _ => none


/-- A value of the struct `DefaultConfig` of config.go: five exported string fields. -/
def defaultConfig (serviceName serviceVersion closerGracefulTimeout logLevel mode : String) :
    Value :=
  .struct (.cons "ServiceName" true (.string serviceName)
    (.cons "ServiceVersion" true (.string serviceVersion)
    (.cons "CloserGracefulTimeout" true (.string closerGracefulTimeout)
    (.cons "LogLevel" true (.string logLevel)
    (.cons "Mode" true (.string mode) .nil)))))

/-- A value of the struct `Config` of config_test.go: the embedded `DefaultConfig`,
`Port` and the slice `IDs`. -/
def testConfig (dc : Value) (port : String) (ids : Value) : Value :=
  .struct (.cons "DefaultConfig" true dc
    (.cons "Port" true (.string port)
    (.cons "IDs" true ids .nil)))

/-- A non-nil `[]int` of three elements. -/
def intSlice3 (a b c : Int) : Value :=
  .ref (.cons (.int a) (.cons (.int b) (.cons (.int c) .nil)))

/-- The configuration the test reads from `config_test.toml`. -/
def tomlOfTest : Value :=
  testConfig (defaultConfig "name toml" "" "3" "" "PROD") "99" (intSlice3 1 2 3)

/-- The configuration read from an environment in which only `SERVICE_NAME` is set. -/
def envServiceNameOnly : Value :=
  testConfig (defaultConfig "name env" "" "" "" "") "" .nil

/-- The setting `name` of the embedded `DefaultConfig` of a test configuration. -/
def defaultSetting (cfg : Value) (name : String) : Option Value :=
  (cfg.field "DefaultConfig").bind (fun dc => dc.field name)

end libconfig

namespace libcloser

/-- The registrations made by a schedule, in order. -/
def registrations : List Event → List Job
  | [] => []
  | .AddCloser cl :: es => .closer cl :: registrations es
  | .AddFunc cf :: es => .func cf :: registrations es
  | _ :: es => registrations es

/-- What holds in every state the system reaches from `NewCloser`.

* before the first trigger nothing has run, been sent or been started, the lock is
  free and both listeners wait;
* while the body of `drop` waits at its `select` it has run once, nothing has been
  sent and the lock is held;
* after it the body has run once and one value has been sent;
* every value sent on `done` is either still in the channel or has been received;
* the wait-group counter is the number of goroutines whose call has not returned;
* the graceful channel is closed only when that counter is zero;
* a goroutine that has finished called an action that returns. -/
structure Inv (s : Closer) : Prop where
  fresh : s.once = .fresh →
    s.bodyRuns = 0 ∧ s.doneSends = 0 ∧ s.invoked = [] ∧ s.goroutines = [] ∧
    s.locked = false ∧ s.sigListening = true ∧ s.ctxListening = true
  running : s.once = .running → s.bodyRuns = 1 ∧ s.doneSends = 0 ∧ s.locked = true
  complete : s.once = .complete → s.bodyRuns = 1 ∧ s.doneSends = 1 ∧ s.locked = false
  chan : s.done + s.received = s.doneSends
  counter : s.wg = unfinished s.goroutines
  graceful : s.chGracefulJobClose = true → s.wg = 0
  finished : ∀ g ∈ s.goroutines, g.2 = true → g.1.returns = true


/-- A closer whose `Close` returns an error. -/
def failingCloser : IoCloser := ⟨"db", .returnsError "connection reset"⟩

/-- A closer whose `Close` never returns. -/
def hangingCloser : IoCloser := ⟨"queue", .neverReturns⟩

/-- A plain function that returns. -/
def flushFunc : CloseFunc := ⟨"flush", true⟩

/-- The state of a `Closer` whose shutdown sequence has concluded gracefully with no
registered action. -/
def concluded : Closer :=
  run (NewCloser "5") [.Close, .wgWait, .selectGraceful]

end libcloser

/-! Theorems: the grace period resolved by `NewCloser` -/

namespace libcloser

open strconv

/-- The duration stored by `NewCloser` after a failed parse is the default. -/
theorem NewCloser_timeout_of_error (gt : String) (e : NumError) (h : Atoi gt = .error e) :
    (NewCloser gt).gracefulTimeout = durationSeconds defaultGracefulTimeout := by
  simp [NewCloser, h]

/-- The duration stored by `NewCloser` after a successful parse is the wrapped product. -/
theorem NewCloser_timeout_of_ok (gt : String) (d : Int) (h : Atoi gt = .ok d) :
    (NewCloser gt).gracefulTimeout = durationSeconds d := by
  simp [NewCloser, h]

/-- Inside the range of `int64` the wrap is the identity. -/
theorem wrapInt64_of_range (x : Int) (hlo : -2 ^ 63 ≤ x) (hhi : x < 2 ^ 63) :
    wrapInt64 x = x := by
  unfold wrapInt64
  rw [Int.emod_eq_of_lt (by omega) (by omega)]
  omega

/-- The strings listed in the description of the fallback are all rejected by `Atoi`:
the empty string, letters, a trailing unit, a fraction, a value outside `int64`. -/
theorem Atoi_rejects_examples :
    Atoi "" = .error .ErrSyntax ∧ Atoi "abc" = .error .ErrSyntax ∧
    Atoi "5s" = .error .ErrSyntax ∧ Atoi "1.5" = .error .ErrSyntax ∧
    Atoi "9223372036854775808" = .error .ErrRange := by
  decide

/-- C6: for every `GracefulTimeout` string on which `strconv.Atoi` fails, with whatever
error, `NewCloser` (a total function with no error result) returns a fresh `Closer`
whose grace period is exactly 5 seconds, 5 000 000 000 nanoseconds. -/
theorem NewCloser_parse_failure_falls_back_to_five_seconds (gt : String) (e : NumError)
    (h : Atoi gt = .error e) :
    (NewCloser gt).gracefulTimeout = 5 * Second ∧
    (NewCloser gt).gracefulTimeout = 5000000000 ∧
    (NewCloser gt).once = .fresh ∧ (NewCloser gt).done = 0 := by
  have h1 := NewCloser_timeout_of_error gt e h
  refine ⟨?_, ?_, rfl, rfl⟩
  · rw [h1]; decide
  · rw [h1]; decide

/-- C6 at the string `5s`: a trailing unit does not parse and the grace period is 5
seconds. -/
theorem NewCloser_parse_failure_witness :
    Atoi "5s" = .error .ErrSyntax ∧
    ((NewCloser "5s").gracefulTimeout = 5 * Second ∧
     (NewCloser "5s").gracefulTimeout = 5000000000 ∧
     (NewCloser "5s").once = .fresh ∧ (NewCloser "5s").done = 0) :=
  ⟨by decide, NewCloser_parse_failure_falls_back_to_five_seconds "5s" .ErrSyntax (by decide)⟩

/-- C7 as stated fails: `9223372037` parses, and the stored duration is not
9223372037 * 1 000 000 000 nanoseconds (the `int64` product wraps to a negative
number). -/
theorem NewCloser_timeout_overflow_counterexample :
    Atoi "9223372037" = .ok 9223372037 ∧
    (NewCloser "9223372037").gracefulTimeout ≠ 9223372037 * 1000000000 ∧
    (NewCloser "9223372037").gracefulTimeout = -9223372036709551616 := by
  decide

/-- C7, amended: for every string that parses as the integer `d`, the stored duration
is the `int64` wrap of `d * 1 000 000 000`; it is exactly `d * 1 000 000 000`
nanoseconds whenever `-9223372036 ≤ d ≤ 9223372036`. -/
theorem NewCloser_timeout_is_wrapped_product (gt : String) (d : Int)
    (h : Atoi gt = .ok d) :
    (NewCloser gt).gracefulTimeout = wrapInt64 (d * 1000000000) ∧
    (-9223372036 ≤ d ∧ d ≤ 9223372036 →
      (NewCloser gt).gracefulTimeout = d * 1000000000) := by
  have h1 := NewCloser_timeout_of_ok gt d h
  refine ⟨by rw [h1]; rfl, fun hr => ?_⟩
  rw [h1]
  unfold durationSeconds Second
  apply wrapInt64_of_range <;> omega

/-- C7, amended, at the string `6` of the test: 6 000 000 000 nanoseconds. -/
theorem NewCloser_timeout_is_wrapped_product_witness :
    Atoi "6" = .ok 6 ∧
    ((NewCloser "6").gracefulTimeout = wrapInt64 (6 * 1000000000) ∧
     (-9223372036 ≤ (6 : Int) ∧ (6 : Int) ≤ 9223372036 →
       (NewCloser "6").gracefulTimeout = 6 * 1000000000)) :=
  ⟨by decide, NewCloser_timeout_is_wrapped_product "6" 6 (by decide)⟩

end libcloser

/-! Theorems: the application mode -/

namespace libmode

/-- C10: for every string and every upper-casing function standing for
`strings.ToUpper`, `NewModeFromString` returns a nil error exactly when the upper-cased
string is one of PROD, DEV, MOCK, LOCAL; it then returns that string as the mode and
`GetMode` afterwards returns the same mode; otherwise it returns `ServiceModeUnknown`
with `ErrWrongModeSyntax` and `GetMode` afterwards returns what it returned before.
The initial mode is PROD. -/
theorem NewModeFromString_accepts_exactly_four_modes (ToUpper : String → String)
    (appMode : Mode) (mode : String) :
    ((NewModeFromString ToUpper appMode mode).1.2 = none ↔
      ToUpper mode ∈ ["PROD", "DEV", "MOCK", "LOCAL"]) ∧
    ((NewModeFromString ToUpper appMode mode).1.2 = none →
      (NewModeFromString ToUpper appMode mode).1.1 = ToUpper mode ∧
      GetMode (NewModeFromString ToUpper appMode mode).2 =
        (NewModeFromString ToUpper appMode mode).1.1) ∧
    ((NewModeFromString ToUpper appMode mode).1.2 ≠ none →
      (NewModeFromString ToUpper appMode mode).1 =
        (ServiceModeUnknown, some .ErrWrongModeSyntax) ∧
      GetMode (NewModeFromString ToUpper appMode mode).2 = GetMode appMode) ∧
    GetMode appModeInit = "PROD" := by
  unfold NewModeFromString GetMode ServiceModeProd ServiceModeDev ServiceModeMock
    ServiceModeLocal ServiceModeUnknown
  refine ⟨?_, ?_, ?_, rfl⟩
  · by_cases h1 : ToUpper mode = "PROD"
    · simp [h1]
    · by_cases h2 : ToUpper mode = "DEV"
      · simp [h2]
      · by_cases h3 : ToUpper mode = "MOCK"
        · simp [h3]
        · by_cases h4 : ToUpper mode = "LOCAL"
          · simp [h4]
          · simp [h1, h2, h3, h4]
  · by_cases h1 : ToUpper mode = "PROD"
    · simp [h1]
    · by_cases h2 : ToUpper mode = "DEV"
      · simp [h2]
      · by_cases h3 : ToUpper mode = "MOCK"
        · simp [h3]
        · by_cases h4 : ToUpper mode = "LOCAL"
          · simp [h4]
          · simp [h1, h2, h3, h4]
  · by_cases h1 : ToUpper mode = "PROD"
    · simp [h1]
    · by_cases h2 : ToUpper mode = "DEV"
      · simp [h2]
      · by_cases h3 : ToUpper mode = "MOCK"
        · simp [h3]
        · by_cases h4 : ToUpper mode = "LOCAL"
          · simp [h4]
          · simp [h1, h2, h3, h4]

/-- C10 on lower-case input with the ASCII upper-casing: `dev` is accepted as DEV and
becomes the mode; `production` is refused and the mode stays PROD. -/
theorem NewModeFromString_witness :
    NewModeFromString asciiToUpper appModeInit "dev" = (("DEV", none), "DEV") ∧
    NewModeFromString asciiToUpper appModeInit "production" =
      (("UNKNOWN", some .ErrWrongModeSyntax), "PROD") ∧
    (((NewModeFromString asciiToUpper appModeInit "dev").1.2 = none ↔
      asciiToUpper "dev" ∈ ["PROD", "DEV", "MOCK", "LOCAL"]) ∧
    ((NewModeFromString asciiToUpper appModeInit "dev").1.2 = none →
      (NewModeFromString asciiToUpper appModeInit "dev").1.1 = asciiToUpper "dev" ∧
      GetMode (NewModeFromString asciiToUpper appModeInit "dev").2 =
        (NewModeFromString asciiToUpper appModeInit "dev").1.1) ∧
    ((NewModeFromString asciiToUpper appModeInit "dev").1.2 ≠ none →
      (NewModeFromString asciiToUpper appModeInit "dev").1 =
        (ServiceModeUnknown, some .ErrWrongModeSyntax) ∧
      GetMode (NewModeFromString asciiToUpper appModeInit "dev").2 = GetMode appModeInit) ∧
    GetMode appModeInit = "PROD") :=
  ⟨by decide, by decide,
    NewModeFromString_accepts_exactly_four_modes asciiToUpper appModeInit "dev"⟩

end libmode

/-! Theorems: merging configurations -/

namespace libconfig

mutual
/-- The zero value of a type is judged zero by `isZeroValue`. -/
theorem isZeroValue_zeroOf : ∀ v : Value, isZeroValue (zeroOf v) = true
  | .bool _ => by simp [zeroOf, isZeroValue]
  | .int _ => by simp [zeroOf, isZeroValue]
  | .uint _ => by simp [zeroOf, isZeroValue]
  | .float _ => by simp [zeroOf, isZeroValue, floatIsZero]
  | .complex _ _ => by simp [zeroOf, isZeroValue, floatIsZero]
  | .string _ => by simp [zeroOf, isZeroValue]
  | .nil => by simp [zeroOf, isZeroValue]
  | .ref _ => by simp [zeroOf, isZeroValue]
  | .array elems => by simp [zeroOf, isZeroValue, isZeroElems_zeroOfElems elems]
  | .struct fields => by simp [zeroOf, isZeroValue, isZeroFields_zeroOfFields fields]
  | .func _ => by simp [zeroOf, isZeroValue]
/-- The zero elements of an array are all judged zero. -/
theorem isZeroElems_zeroOfElems : ∀ vs : Values, isZeroElems (zeroOfElems vs) = true
  | .nil => by simp [zeroOfElems, isZeroElems]
  | .cons v vs => by
    simp [zeroOfElems, isZeroElems, isZeroValue_zeroOf v, isZeroElems_zeroOfElems vs]
/-- The zero fields of a struct are all judged zero. -/
theorem isZeroFields_zeroOfFields : ∀ fs : Fields, isZeroFields (zeroOfFields fs) = true
  | .nil => by simp [zeroOfFields, isZeroFields]
  | .cons _ _ v fs => by
    simp [zeroOfFields, isZeroFields, isZeroValue_zeroOf v, isZeroFields_zeroOfFields fs]
end

/-- A floating-point number that compares equal to zero and is not the negative zero
is the zero of its type. -/
theorem bits_eq_zero_of_floatIsZero (bits : Nat) (hz : floatIsZero bits = true)
    (hn : (bits != negativeZeroBits) = true) : bits = 0 := by
  simp only [floatIsZero, Bool.or_eq_true, beq_iff_eq] at hz
  simp only [bne_iff_ne, ne_eq] at hn
  rcases hz with h | h
  · exact h
  · exact absurd h hn

mutual
/-- A value without unexported fields and without a negative zero that `isZeroValue`
judges zero is the zero value of its type. -/
theorem zeroOf_eq_of_isZeroValue : ∀ v : Value,
    exportedOnly v = true → noNegativeZero v = true → isZeroValue v = true → zeroOf v = v
  | .bool b => by simp [zeroOf, isZeroValue]
  | .int n => by
    intro _ _ h
    simp [isZeroValue] at h
    simp [zeroOf, h]
  | .uint n => by
    intro _ _ h
    simp [isZeroValue] at h
    simp [zeroOf, h]
  | .float bits => by
    intro _ hn h
    simp only [noNegativeZero] at hn
    simp only [isZeroValue] at h
    simp [zeroOf, bits_eq_zero_of_floatIsZero bits h hn]
  | .complex re im => by
    intro _ hn h
    simp only [noNegativeZero, Bool.and_eq_true] at hn
    simp only [isZeroValue, Bool.and_eq_true] at h
    simp [zeroOf, bits_eq_zero_of_floatIsZero re h.1 hn.1,
      bits_eq_zero_of_floatIsZero im h.2 hn.2]
  | .string s => by
    intro _ _ h
    simp [isZeroValue] at h
    simp [zeroOf, h]
  | .nil => by simp [zeroOf]
  | .ref _ => by simp [isZeroValue]
  | .array elems => by
    intro he hn hz
    simp only [exportedOnly] at he
    simp only [noNegativeZero] at hn
    simp only [isZeroValue] at hz
    simp [zeroOf, zeroOfElems_eq_of_isZeroElems elems he hn hz]
  | .struct fields => by
    intro he hn hz
    simp only [exportedOnly] at he
    simp only [noNegativeZero] at hn
    simp only [isZeroValue] at hz
    simp [zeroOf, zeroOfFields_eq_of_isZeroFields fields he hn hz]
  | .func code => by
    intro _ _ h
    simp [isZeroValue] at h
    simp [zeroOf, h]
/-- The same for the elements of an array. -/
theorem zeroOfElems_eq_of_isZeroElems : ∀ vs : Values,
    exportedOnlyElems vs = true → noNegativeZeroElems vs = true →
    isZeroElems vs = true → zeroOfElems vs = vs
  | .nil => by simp [zeroOfElems]
  | .cons v vs => by
    intro he hn hz
    simp only [exportedOnlyElems, Bool.and_eq_true] at he
    simp only [noNegativeZeroElems, Bool.and_eq_true] at hn
    simp only [isZeroElems] at hz
    cases hv : isZeroValue v with
    | false => simp [hv] at hz
    | true =>
      simp [hv] at hz
      simp [zeroOfElems, zeroOf_eq_of_isZeroValue v he.1 hn.1 hv,
        zeroOfElems_eq_of_isZeroElems vs he.2 hn.2 hz]
/-- The same for the fields of a struct. -/
theorem zeroOfFields_eq_of_isZeroFields : ∀ fs : Fields,
    exportedOnlyFields fs = true → noNegativeZeroFields fs = true →
    isZeroFields fs = true → zeroOfFields fs = fs
  | .nil => by simp [zeroOfFields]
  | .cons _ exported v fs => by
    intro he hn hz
    simp only [exportedOnlyFields, Bool.and_eq_true] at he
    simp only [noNegativeZeroFields, Bool.and_eq_true] at hn
    obtain ⟨⟨hx, hv⟩, hfs⟩ := he
    subst hx
    simp only [isZeroFields] at hz
    cases hzv : isZeroValue v with
    | false => simp [hzv] at hz
    | true =>
      simp [hzv] at hz
      simp [zeroOfFields, zeroOf_eq_of_isZeroValue v hv hn.1 hzv,
        zeroOfFields_eq_of_isZeroFields fs hfs hn.2 hz]
end

/-- At the top level the merge takes, field by field, the override when the field is
exported and its override is not zero, and the base otherwise. -/
theorem mergeFields_cons (name name2 : String) (exported exported2 : Bool) (b o : Value)
    (bs os : Fields) :
    mergeFields (.cons name exported b bs) (.cons name2 exported2 o os) =
      .cons name exported (if exported = true ∧ isZeroValue o = false then o else b)
        (mergeFields bs os) := by
  cases exported <;> cases h : isZeroValue o <;> simp [mergeFields, h]

/-- C8 fails on the configuration of the test: the file sets `mode` to PROD and
`closer_graceful_timeout` to 3, the environment sets only `SERVICE_NAME`, and the
merged configuration has an empty `Mode` and an empty `CloserGracefulTimeout`: two
settings of the file are overridden although their own environment variables are not
set. The settings outside the embedded struct keep the values of the file. -/
theorem merge_embedded_struct_loses_toml_settings :
    defaultSetting tomlOfTest "Mode" = some (.string "PROD") ∧
    defaultSetting envServiceNameOnly "Mode" = some (.string "") ∧
    isZeroValue (.string "") = true ∧
    defaultSetting (mergeConfigWithPriority tomlOfTest envServiceNameOnly) "Mode" =
      some (.string "") ∧
    defaultSetting (mergeConfigWithPriority tomlOfTest envServiceNameOnly)
      "CloserGracefulTimeout" = some (.string "") ∧
    defaultSetting (mergeConfigWithPriority tomlOfTest envServiceNameOnly) "ServiceName" =
      some (.string "name env") ∧
    (mergeConfigWithPriority tomlOfTest envServiceNameOnly).field "Port" =
      some (.string "99") ∧
    (NewConfig (zeroOf tomlOfTest) (fun _ => (tomlOfTest, none)) (envServiceNameOnly, none)
      "./config_test.toml").1 =
      testConfig (defaultConfig "name env" "" "" "" "") "99" (intSlice3 1 2 3) := by
  refine ⟨rfl, rfl, rfl, rfl, rfl, rfl, rfl, rfl⟩

end libconfig

/-! Theorems: the shutdown coordinator -/

namespace libcloser

/-- The empty schedule. -/
theorem run_nil (s : Closer) : run s [] = s := rfl

/-- A schedule runs its first step, then the rest. -/
theorem run_cons (s : Closer) (e : Event) (es : List Event) :
    run s (e :: es) = run ((step s e).getD s) es := rfl

/-- A schedule in two parts. -/
theorem run_append (s : Closer) (es₁ es₂ : List Event) :
    run s (es₁ ++ es₂) = run (run s es₁) es₂ := by
  simp [run, List.foldl_append]

/-- Right after `drop` has started them, all goroutines are unfinished. -/
theorem unfinished_map_started (js : List Job) :
    unfinished (js.map (fun j => (j, false))) = js.length := by
  induction js with
  | nil => rfl
  | cons j js ih => simpa [unfinished] using ih

/-- Finishing one unfinished goroutine lowers the count by one. -/
theorem unfinished_set_finished (gs : List (Job × Bool)) (i : Nat) (j : Job)
    (h : gs[i]? = some (j, false)) :
    unfinished (gs.set i (j, true)) = unfinished gs - 1 ∧ 0 < unfinished gs := by
  induction gs generalizing i with
  | nil => simp at h
  | cons g gs ih =>
    cases i with
    | zero =>
      simp at h
      subst h
      simp [unfinished]
    | succ i =>
      simp at h
      have := ih i h
      cases hg : g.2 <;> simp [unfinished, hg] at this ⊢ <;> omega

/-- The invariant holds in the state `NewCloser` returns. -/
theorem Inv_NewCloser (gt : String) : Inv (NewCloser gt) := by
  constructor <;> simp [NewCloser, unfinished]

/-- The entry of `drop` keeps the invariant. -/
theorem Inv_drop (s : Closer) (h : Inv s) : Inv (drop s) := by
  unfold drop
  cases ho : s.once with
  | fresh =>
    obtain ⟨h1, h2, h3, h4, h5, h6, h7⟩ := h.fresh ho
    have hc := h.chan
    have hu := unfinished_map_started (s.closers.map Job.closer ++ s.closeFuncs.map Job.func)
    constructor
    case counter => simpa using hu.symm
    all_goals simp_all
  | running => simpa [ho] using h
  | complete => simpa [ho] using h

/-- The send on `done` and the end of the body keep the invariant. -/
theorem Inv_sendDone (s s' : Closer) (line : String) (h : Inv s) (ho : s.once = .running)
    (hs : sendDone s line = some s') : Inv s' := by
  unfold sendDone at hs
  split at hs
  · simp only [Option.some.injEq] at hs
    subst hs
    obtain ⟨h1, h2, h3⟩ := h.running ho
    have hc := h.chan
    have hw := h.counter
    have hg := h.graceful
    have hf := h.finished
    constructor <;> simp_all
  · simp at hs

/-- Every step keeps the invariant. -/
theorem Inv_step (s s' : Closer) (e : Event) (h : Inv s) (hs : step s e = some s') :
    Inv s' := by
  cases e with
  | AddCloser cl =>
    simp only [step] at hs
    split at hs
    · simp at hs
    · simp only [Option.some.injEq] at hs
      subst hs
      exact ⟨h.fresh, h.running, h.complete, h.chan, h.counter, h.graceful, h.finished⟩
  | AddFunc cf =>
    simp only [step] at hs
    split at hs
    · simp at hs
    · simp only [Option.some.injEq] at hs
      subst hs
      exact ⟨h.fresh, h.running, h.complete, h.chan, h.counter, h.graceful, h.finished⟩
  | Close =>
    simp only [step, Option.some.injEq] at hs
    subst hs
    exact Inv_drop s h
  | signal =>
    simp only [step] at hs
    split at hs
    · simp only [Option.some.injEq] at hs
      subst hs
      unfold drop
      cases ho : s.once with
      | fresh =>
        obtain ⟨h1, h2, h3, h4, h5, h6, h7⟩ := h.fresh ho
        have hc := h.chan
        have hu := unfinished_map_started
          (s.closers.map Job.closer ++ s.closeFuncs.map Job.func)
        constructor
        case counter => simpa [ho] using hu.symm
        all_goals simp_all
      | running =>
        obtain ⟨h1, h2, h3⟩ := h.running ho
        simp only [ho]
        exact ⟨by simp [ho], by simp [h1, h2, h3], by simp [ho], h.chan, h.counter,
          h.graceful, h.finished⟩
      | complete =>
        obtain ⟨h1, h2, h3⟩ := h.complete ho
        simp only [ho]
        exact ⟨by simp [ho], by simp [ho], by simp [h1, h2, h3], h.chan, h.counter,
          h.graceful, h.finished⟩
    · simp at hs
  | ctxDone =>
    simp only [step] at hs
    split at hs
    · simp only [Option.some.injEq] at hs
      subst hs
      unfold drop
      cases ho : s.once with
      | fresh =>
        obtain ⟨h1, h2, h3, h4, h5, h6, h7⟩ := h.fresh ho
        have hc := h.chan
        have hu := unfinished_map_started
          (s.closers.map Job.closer ++ s.closeFuncs.map Job.func)
        constructor
        case counter => simpa [ho] using hu.symm
        all_goals simp_all
      | running =>
        obtain ⟨h1, h2, h3⟩ := h.running ho
        simp only [ho]
        exact ⟨by simp [ho], by simp [h1, h2, h3], by simp [ho], h.chan, h.counter,
          h.graceful, h.finished⟩
      | complete =>
        obtain ⟨h1, h2, h3⟩ := h.complete ho
        simp only [ho]
        exact ⟨by simp [ho], by simp [ho], by simp [h1, h2, h3], h.chan, h.counter,
          h.graceful, h.finished⟩
    · simp at hs
  | jobReturns i =>
    simp only [step] at hs
    split at hs
    · rename_i j hj
      split at hs
      · rename_i hr
        simp only [Option.some.injEq] at hs
        subst hs
        have hu := unfinished_set_finished s.goroutines i j hj
        have hne : s.goroutines ≠ [] := by
          intro hnil
          simp [hnil] at hj
        refine ⟨?_, h.running, h.complete, h.chan, ?_, ?_, ?_⟩
        · intro ho
          exact absurd (h.fresh ho).2.2.2.1 hne
        · show s.wg - 1 = unfinished (s.goroutines.set i (j, true))
          rw [hu.1, h.counter]
        · intro hg
          show s.wg - 1 = 0
          have := h.graceful hg
          omega
        · intro g hg hfin
          show g.1.returns = true
          have hg' : g ∈ s.goroutines.set i (j, true) := hg
          rcases List.mem_or_eq_of_mem_set hg' with hmem | heq
          · exact h.finished g hmem hfin
          · subst heq
            exact hr
      · simp at hs
    · simp at hs
  | wgWait =>
    simp only [step] at hs
    split at hs
    · rename_i hc
      simp only [Option.some.injEq] at hs
      subst hs
      exact ⟨h.fresh, h.running, h.complete, h.chan, h.counter, fun _ => hc.2.1, h.finished⟩
    · simp at hs
  | timer =>
    simp only [step] at hs
    split at hs
    · simp only [Option.some.injEq] at hs
      subst hs
      exact ⟨h.fresh, h.running, h.complete, h.chan, h.counter, h.graceful, h.finished⟩
    · simp at hs
  | selectGraceful =>
    simp only [step] at hs
    split at hs
    · rename_i hc
      exact Inv_sendDone s s' _ h hc.1 hs
    · simp at hs
  | selectTimeout =>
    simp only [step] at hs
    split at hs
    · rename_i hc
      exact Inv_sendDone s s' _ h hc.1 hs
    · simp at hs
  | Wait =>
    simp only [step] at hs
    split at hs
    · rename_i hc
      simp only [Option.some.injEq] at hs
      subst hs
      refine ⟨h.fresh, h.running, h.complete, ?_, h.counter, h.graceful, h.finished⟩
      show s.done - 1 + (s.received + 1) = s.doneSends
      have := h.chan
      omega
    · simp at hs

/-- A step of a schedule, taken or not, keeps the invariant. -/
theorem Inv_getD_step (s : Closer) (e : Event) (h : Inv s) : Inv ((step s e).getD s) := by
  cases hs : step s e with
  | none => simpa using h
  | some s' => simpa using Inv_step s s' e h hs

/-- Every schedule keeps the invariant. -/
theorem Inv_run (s : Closer) (es : List Event) (h : Inv s) : Inv (run s es) := by
  induction es generalizing s with
  | nil => exact h
  | cons e es ih => exact ih _ (Inv_getD_step s e h)

/-- The invariant holds in every state reached from `NewCloser`. -/
theorem Inv_reachable (gt : String) (es : List Event) : Inv (run (NewCloser gt) es) :=
  Inv_run _ es (Inv_NewCloser gt)

/-- On a `sync.Once` already used, `drop` leaves the state as it is. -/
theorem drop_of_not_fresh (s : Closer) (h : s.once ≠ .fresh) : drop s = s := by
  unfold drop
  cases ho : s.once with
  | fresh => exact absurd ho h
  | running => rfl
  | complete => rfl

/-- On a fresh `sync.Once`, `drop` runs its body. -/
theorem drop_of_fresh (s : Closer) (h : s.once = .fresh) :
    (drop s).once = .running ∧ (drop s).bodyRuns = s.bodyRuns + 1 ∧
    (drop s).invoked =
      s.invoked ++ (s.closers.map Job.closer ++ s.closeFuncs.map Job.func) ∧
    (drop s).goroutines =
      (s.closers.map Job.closer ++ s.closeFuncs.map Job.func).map (fun j => (j, false)) := by
  unfold drop
  simp [h]

/-- Finishing a goroutine does not change which action it runs. -/
theorem map_fst_set_finished (gs : List (Job × Bool)) (i : Nat) (j : Job)
    (h : gs[i]? = some (j, false)) :
    (gs.set i (j, true)).map Prod.fst = gs.map Prod.fst := by
  induction gs generalizing i with
  | nil => simp
  | cons g gs ih =>
    cases i with
    | zero =>
      simp at h
      subst h
      simp
    | succ i =>
      simp at h
      simpa using ih i h

/-- What no step changes once the body of `drop` has been entered. -/
theorem step_frame (s s' : Closer) (e : Event) (hs : step s e = some s')
    (ho : s.once ≠ .fresh) :
    s'.once ≠ .fresh ∧ s'.invoked = s.invoked ∧ s'.bodyRuns = s.bodyRuns ∧
    s'.goroutines.map Prod.fst = s.goroutines.map Prod.fst := by
  cases e with
  | AddCloser cl =>
    simp only [step] at hs
    split at hs
    · simp at hs
    · simp only [Option.some.injEq] at hs
      subst hs
      exact ⟨ho, rfl, rfl, rfl⟩
  | AddFunc cf =>
    simp only [step] at hs
    split at hs
    · simp at hs
    · simp only [Option.some.injEq] at hs
      subst hs
      exact ⟨ho, rfl, rfl, rfl⟩
  | Close =>
    simp only [step, Option.some.injEq] at hs
    subst hs
    rw [drop_of_not_fresh s ho]
    exact ⟨ho, rfl, rfl, rfl⟩
  | signal =>
    simp only [step] at hs
    split at hs
    · simp only [Option.some.injEq] at hs
      subst hs
      rw [drop_of_not_fresh _ (by simpa using ho)]
      exact ⟨ho, rfl, rfl, rfl⟩
    · simp at hs
  | ctxDone =>
    simp only [step] at hs
    split at hs
    · simp only [Option.some.injEq] at hs
      subst hs
      rw [drop_of_not_fresh _ (by simpa using ho)]
      exact ⟨ho, rfl, rfl, rfl⟩
    · simp at hs
  | jobReturns i =>
    simp only [step] at hs
    split at hs
    · rename_i j hj
      split at hs
      · simp only [Option.some.injEq] at hs
        subst hs
        exact ⟨ho, rfl, rfl, map_fst_set_finished s.goroutines i j hj⟩
      · simp at hs
    · simp at hs
  | wgWait =>
    simp only [step] at hs
    split at hs
    · simp only [Option.some.injEq] at hs
      subst hs
      exact ⟨ho, rfl, rfl, rfl⟩
    · simp at hs
  | timer =>
    simp only [step] at hs
    split at hs
    · simp only [Option.some.injEq] at hs
      subst hs
      exact ⟨ho, rfl, rfl, rfl⟩
    · simp at hs
  | selectGraceful =>
    simp only [step, sendDone] at hs
    split at hs
    · split at hs
      · simp only [Option.some.injEq] at hs
        subst hs
        exact ⟨by simp, rfl, rfl, rfl⟩
      · simp at hs
    · simp at hs
  | selectTimeout =>
    simp only [step, sendDone] at hs
    split at hs
    · split at hs
      · simp only [Option.some.injEq] at hs
        subst hs
        exact ⟨by simp, rfl, rfl, rfl⟩
      · simp at hs
    · simp at hs
  | Wait =>
    simp only [step] at hs
    split at hs
    · simp only [Option.some.injEq] at hs
      subst hs
      exact ⟨ho, rfl, rfl, rfl⟩
    · simp at hs

/-- The same along a schedule. -/
theorem run_frame (s : Closer) (es : List Event) (ho : s.once ≠ .fresh) :
    (run s es).once ≠ .fresh ∧ (run s es).invoked = s.invoked ∧
    (run s es).bodyRuns = s.bodyRuns ∧
    (run s es).goroutines.map Prod.fst = s.goroutines.map Prod.fst := by
  induction es generalizing s with
  | nil => exact ⟨ho, rfl, rfl, rfl⟩
  | cons e es ih =>
    rw [run_cons]
    cases hs : step s e with
    | none => simpa using ih s ho
    | some s' =>
      obtain ⟨h1, h2, h3, h4⟩ := step_frame s s' e hs ho
      obtain ⟨k1, k2, k3, k4⟩ := ih s' h1
      simp only [Option.getD_some]
      exact ⟨k1, k2.trans h2, k3.trans h3, k4.trans h4⟩

/-- The number of completed receives never goes down. -/
theorem received_mono_step (s s' : Closer) (e : Event) (hs : step s e = some s') :
    s.received ≤ s'.received := by
  cases e <;> simp only [step, sendDone, drop] at hs
  case Close =>
    simp only [Option.some.injEq] at hs
    subst hs
    cases s.once <;> simp
  case signal =>
    split at hs
    · simp only [Option.some.injEq] at hs
      subst hs
      cases s.once <;> simp
    · simp at hs
  case ctxDone =>
    split at hs
    · simp only [Option.some.injEq] at hs
      subst hs
      cases s.once <;> simp
    · simp at hs
  case jobReturns i =>
    split at hs
    · split at hs
      · simp only [Option.some.injEq] at hs
        subst hs
        simp
      · simp at hs
    · simp at hs
  case selectGraceful =>
    split at hs
    · split at hs
      · simp only [Option.some.injEq] at hs
        subst hs
        simp
      · simp at hs
    · simp at hs
  case selectTimeout =>
    split at hs
    · split at hs
      · simp only [Option.some.injEq] at hs
        subst hs
        simp
      · simp at hs
    · simp at hs
  all_goals
    split at hs
    · first
      | (simp only [Option.some.injEq] at hs; subst hs; simp)
      | simp at hs
    · first
      | (simp only [Option.some.injEq] at hs; subst hs; simp)
      | simp at hs

/-- The same along a schedule. -/
theorem received_mono_run (s : Closer) (es : List Event) :
    s.received ≤ (run s es).received := by
  induction es generalizing s with
  | nil => exact Nat.le_refl _
  | cons e es ih =>
    rw [run_cons]
    cases hs : step s e with
    | none => simpa using ih s
    | some s' =>
      simp only [Option.getD_some]
      exact Nat.le_trans (received_mono_step s s' e hs) (ih s')

/-- Before the first trigger a step that is not a trigger is a registration or
nothing. -/
theorem fresh_step (s : Closer) (e : Event) (hI : Inv s) (ho : s.once = .fresh)
    (he : e.isTrigger = false) :
    ((step s e).getD s).once = .fresh ∧
    ((step s e).getD s).closers = s.closers ++ closersOf (registrations [e]) ∧
    ((step s e).getD s).closeFuncs = s.closeFuncs ++ funcsOf (registrations [e]) := by
  obtain ⟨h1, h2, h3, h4, h5, h6, h7⟩ := hI.fresh ho
  have hc := hI.chan
  cases e with
  | AddCloser cl => simp [step, h5, ho, registrations, closersOf, funcsOf]
  | AddFunc cf => simp [step, h5, ho, registrations, closersOf, funcsOf]
  | Close => simp [Event.isTrigger] at he
  | signal => simp [Event.isTrigger] at he
  | ctxDone => simp [Event.isTrigger] at he
  | jobReturns i => simp [step, h4, ho, registrations, closersOf, funcsOf]
  | wgWait => simp [step, ho, registrations, closersOf, funcsOf]
  | timer => simp [step, ho, registrations, closersOf, funcsOf]
  | selectGraceful => simp [step, ho, registrations, closersOf, funcsOf]
  | selectTimeout => simp [step, ho, registrations, closersOf, funcsOf]
  | Wait =>
    have hd : s.done = 0 := by omega
    simp [step, hd, ho, registrations, closersOf, funcsOf]

/-- The registrations of a schedule, step by step. -/
theorem registrations_cons (e : Event) (es : List Event) :
    registrations (e :: es) = registrations [e] ++ registrations es := by
  cases e <;> simp [registrations]

/-- The closers of two lists of registrations. -/
theorem closersOf_append (js₁ js₂ : List Job) :
    closersOf (js₁ ++ js₂) = closersOf js₁ ++ closersOf js₂ := by
  induction js₁ with
  | nil => rfl
  | cons j js ih => cases j <;> simp [closersOf, ih]

/-- The functions of two lists of registrations. -/
theorem funcsOf_append (js₁ js₂ : List Job) :
    funcsOf (js₁ ++ js₂) = funcsOf js₁ ++ funcsOf js₂ := by
  induction js₁ with
  | nil => rfl
  | cons j js ih => cases j <;> simp [funcsOf, ih]

/-- Before the first trigger the registry holds exactly the registrations made. -/
theorem fresh_phase (s : Closer) (es : List Event) (hI : Inv s) (ho : s.once = .fresh)
    (hn : ∀ e ∈ es, e.isTrigger = false) :
    (run s es).once = .fresh ∧
    (run s es).closers = s.closers ++ closersOf (registrations es) ∧
    (run s es).closeFuncs = s.closeFuncs ++ funcsOf (registrations es) := by
  induction es generalizing s with
  | nil => simp [run, registrations, closersOf, funcsOf, ho]
  | cons e es ih =>
    have he : e.isTrigger = false := hn e (List.mem_cons_self _ _)
    obtain ⟨k1, k2, k3⟩ := fresh_step s e hI ho he
    obtain ⟨m1, m2, m3⟩ := ih _ (Inv_getD_step s e hI) k1
      (fun x hx => hn x (List.mem_cons_of_mem _ hx))
    rw [run_cons, registrations_cons, closersOf_append, funcsOf_append]
    refine ⟨m1, ?_, ?_⟩
    · rw [m2, k2, List.append_assoc]
    · rw [m3, k3, List.append_assoc]

/-- The first trigger, whichever it is, enters the body of `drop`. -/
theorem first_trigger (s : Closer) (t : Event) (hI : Inv s) (ho : s.once = .fresh)
    (ht : t.isTrigger = true) :
    ((step s t).getD s).once = .running ∧
    ((step s t).getD s).bodyRuns = 1 ∧
    ((step s t).getD s).invoked =
      s.closers.map Job.closer ++ s.closeFuncs.map Job.func ∧
    ((step s t).getD s).goroutines.map Prod.fst = ((step s t).getD s).invoked := by
  obtain ⟨h1, h2, h3, h4, h5, h6, h7⟩ := hI.fresh ho
  cases t with
  | Close => simp [step, drop, ho, h1, h3, Function.comp_def]
  | signal => simp [step, drop, ho, h1, h3, h6, Function.comp_def]
  | ctxDone => simp [step, drop, ho, h1, h3, h7, Function.comp_def]
  | AddCloser cl => simp [Event.isTrigger] at ht
  | AddFunc cf => simp [Event.isTrigger] at ht
  | jobReturns i => simp [Event.isTrigger] at ht
  | wgWait => simp [Event.isTrigger] at ht
  | timer => simp [Event.isTrigger] at ht
  | selectGraceful => simp [Event.isTrigger] at ht
  | selectTimeout => simp [Event.isTrigger] at ht
  | Wait => simp [Event.isTrigger] at ht

/-- A later trigger starts nothing and sends nothing. -/
theorem later_trigger (s : Closer) (t : Event) (ho : s.once ≠ .fresh)
    (ht : t.isTrigger = true) :
    ((step s t).getD s).once = s.once ∧
    ((step s t).getD s).goroutines = s.goroutines ∧
    ((step s t).getD s).invoked = s.invoked ∧
    ((step s t).getD s).bodyRuns = s.bodyRuns ∧
    ((step s t).getD s).doneSends = s.doneSends ∧
    ((step s t).getD s).done = s.done ∧
    ((step s t).getD s).wg = s.wg ∧
    ((step s t).getD s).closers = s.closers ∧
    ((step s t).getD s).closeFuncs = s.closeFuncs := by
  cases t with
  | Close => simp [step, drop_of_not_fresh s ho]
  | signal =>
    cases hl : s.sigListening with
    | false => simp [step, hl]
    | true =>
      simp only [step, hl, if_true, Option.getD_some]
      rw [drop_of_not_fresh _ (by simpa using ho)]
      simp
  | ctxDone =>
    cases hl : s.ctxListening with
    | false => simp [step, hl]
    | true =>
      simp only [step, hl, if_true, Option.getD_some]
      rw [drop_of_not_fresh _ (by simpa using ho)]
      simp
  | AddCloser cl => simp [Event.isTrigger] at ht
  | AddFunc cf => simp [Event.isTrigger] at ht
  | jobReturns i => simp [Event.isTrigger] at ht
  | wgWait => simp [Event.isTrigger] at ht
  | timer => simp [Event.isTrigger] at ht
  | selectGraceful => simp [Event.isTrigger] at ht
  | selectTimeout => simp [Event.isTrigger] at ht
  | Wait => simp [Event.isTrigger] at ht

/-- The state right after the first trigger of a schedule. -/
theorem after_first_trigger (gt : String) (es₁ : List Event) (t : Event)
    (h₁ : ∀ e ∈ es₁, e.isTrigger = false) (ht : t.isTrigger = true) :
    (run (NewCloser gt) (es₁ ++ [t])).once = .running ∧
    (run (NewCloser gt) (es₁ ++ [t])).bodyRuns = 1 ∧
    (run (NewCloser gt) (es₁ ++ [t])).invoked =
      (closersOf (registrations es₁)).map Job.closer ++
        (funcsOf (registrations es₁)).map Job.func ∧
    (run (NewCloser gt) (es₁ ++ [t])).goroutines.map Prod.fst =
      (run (NewCloser gt) (es₁ ++ [t])).invoked := by
  obtain ⟨k1, k2, k3⟩ := fresh_phase (NewCloser gt) es₁ (Inv_NewCloser gt) rfl h₁
  obtain ⟨m1, m2, m3, m4⟩ := first_trigger _ t (Inv_reachable gt es₁) k1 ht
  rw [run_append, run_cons, run_nil]
  refine ⟨m1, m2, ?_, m4⟩
  rw [m3, k2, k3]
  simp [NewCloser]

/-- A schedule split after its first trigger. -/
theorem run_snoc_cons (s : Closer) (es₁ es₂ : List Event) (t : Event) :
    run s (es₁ ++ t :: es₂) = run (run s (es₁ ++ [t])) es₂ := by
  rw [← run_append]
  simp

/-- The started actions are the registrations, closers first. -/
theorem started_perm (js : List Job) :
    ((closersOf js).map Job.closer ++ (funcsOf js).map Job.func).Perm js := by
  induction js with
  | nil => simp [closersOf, funcsOf]
  | cons j js ih =>
    cases j with
    | closer cl => simpa [closersOf, funcsOf] using ih
    | func cf =>
      simp only [closersOf, funcsOf, List.map_cons]
      exact List.perm_middle.trans (List.Perm.cons _ ih)

/-- Any schedule with a trigger in it has run the body of `drop` exactly once. -/
theorem bodyRuns_of_trigger_mem (gt : String) (es : List Event) (t : Event)
    (ht : t.isTrigger = true) (hmem : t ∈ es) :
    (run (NewCloser gt) es).bodyRuns = 1 := by
  have hI := Inv_reachable gt es
  cases ho : (run (NewCloser gt) es).once with
  | running => exact (hI.running ho).1
  | complete => exact (hI.complete ho).1
  | fresh =>
    exfalso
    have key : ∀ (es : List Event) (s : Closer), Inv s → t ∈ es →
        (run s es).once ≠ .fresh := by
      intro es
      induction es with
      | nil => intro s _ h; simp at h
      | cons e es ih =>
        intro s hs hm
        rw [run_cons]
        by_cases hf : s.once = .fresh
        · rcases List.mem_cons.mp hm with heq | htl
          · subst heq
            have h1 := (first_trigger s t hs hf ht).1
            exact (run_frame _ es (by rw [h1]; simp)).1
          · exact ih _ (Inv_getD_step s e hs) htl
        · have h2 : ((step s e).getD s).once ≠ .fresh := by
            cases hstep : step s e with
            | none => simpa using hf
            | some s' => simpa using (step_frame s s' e hstep hf).1
          exact (run_frame _ es h2).1
    exact key es _ (Inv_NewCloser gt) hmem ho

/-- C1: in every schedule of a `Closer`, with any mix and number of manual, signal and
cancellation triggers, the body of `drop` has not run before the first trigger, has
run exactly once right after it and exactly once after any continuation; a call of
`drop` in any later state returns the state unchanged, and a later trigger of any kind
starts no goroutine, calls no action, sends nothing and leaves the `sync.Once`, the
wait group and the registry as they are. -/
theorem drop_body_runs_exactly_once (gt : String) (es₁ es₂ : List Event) (t : Event)
    (h₁ : ∀ e ∈ es₁, e.isTrigger = false) (ht : t.isTrigger = true) :
    (run (NewCloser gt) es₁).bodyRuns = 0 ∧
    (run (NewCloser gt) (es₁ ++ [t])).bodyRuns = 1 ∧
    (run (NewCloser gt) (es₁ ++ t :: es₂)).bodyRuns = 1 ∧
    drop (run (NewCloser gt) (es₁ ++ t :: es₂)) = run (NewCloser gt) (es₁ ++ t :: es₂) ∧
    (∀ t' : Event, t'.isTrigger = true →
      ((step (run (NewCloser gt) (es₁ ++ t :: es₂)) t').getD
          (run (NewCloser gt) (es₁ ++ t :: es₂))).once =
        (run (NewCloser gt) (es₁ ++ t :: es₂)).once ∧
      ((step (run (NewCloser gt) (es₁ ++ t :: es₂)) t').getD
          (run (NewCloser gt) (es₁ ++ t :: es₂))).goroutines =
        (run (NewCloser gt) (es₁ ++ t :: es₂)).goroutines ∧
      ((step (run (NewCloser gt) (es₁ ++ t :: es₂)) t').getD
          (run (NewCloser gt) (es₁ ++ t :: es₂))).invoked =
        (run (NewCloser gt) (es₁ ++ t :: es₂)).invoked ∧
      ((step (run (NewCloser gt) (es₁ ++ t :: es₂)) t').getD
          (run (NewCloser gt) (es₁ ++ t :: es₂))).bodyRuns = 1 ∧
      ((step (run (NewCloser gt) (es₁ ++ t :: es₂)) t').getD
          (run (NewCloser gt) (es₁ ++ t :: es₂))).doneSends =
        (run (NewCloser gt) (es₁ ++ t :: es₂)).doneSends ∧
      ((step (run (NewCloser gt) (es₁ ++ t :: es₂)) t').getD
          (run (NewCloser gt) (es₁ ++ t :: es₂))).done =
        (run (NewCloser gt) (es₁ ++ t :: es₂)).done ∧
      ((step (run (NewCloser gt) (es₁ ++ t :: es₂)) t').getD
          (run (NewCloser gt) (es₁ ++ t :: es₂))).wg =
        (run (NewCloser gt) (es₁ ++ t :: es₂)).wg ∧
      ((step (run (NewCloser gt) (es₁ ++ t :: es₂)) t').getD
          (run (NewCloser gt) (es₁ ++ t :: es₂))).closers =
        (run (NewCloser gt) (es₁ ++ t :: es₂)).closers ∧
      ((step (run (NewCloser gt) (es₁ ++ t :: es₂)) t').getD
          (run (NewCloser gt) (es₁ ++ t :: es₂))).closeFuncs =
        (run (NewCloser gt) (es₁ ++ t :: es₂)).closeFuncs) := by
  obtain ⟨k1, _, _⟩ := fresh_phase (NewCloser gt) es₁ (Inv_NewCloser gt) rfl h₁
  obtain ⟨a1, a2, _, _⟩ := after_first_trigger gt es₁ t h₁ ht
  have hne : (run (NewCloser gt) (es₁ ++ [t])).once ≠ .fresh := by rw [a1]; simp
  obtain ⟨f1, _, f3, _⟩ := run_frame _ es₂ hne
  rw [← run_snoc_cons] at f1 f3
  have hb : (run (NewCloser gt) (es₁ ++ t :: es₂)).bodyRuns = 1 := by rw [f3, a2]
  refine ⟨((Inv_reachable gt es₁).fresh k1).1, a2, hb, drop_of_not_fresh _ f1, ?_⟩
  intro t' ht'
  obtain ⟨l1, l2, l3, l4, l5, l6, l7, l8, l9⟩ := later_trigger _ t' f1 ht'
  exact ⟨l1, l2, l3, l4.trans hb, l5, l6, l7, l8, l9⟩

/-- C1 on a schedule with all three kinds of trigger: a signal first, then a manual
`Close`, a cancellation and, after the timeout branch, another `Close`. -/
theorem drop_body_runs_exactly_once_witness :
    (∀ e ∈ [Event.AddCloser failingCloser, Event.AddFunc flushFunc],
      e.isTrigger = false) ∧
    Event.signal.isTrigger = true ∧
    (run (NewCloser "5") ([.AddCloser failingCloser, .AddFunc flushFunc] ++
      .signal :: [.Close, .ctxDone, .timer, .selectTimeout, .Close])).bodyRuns = 1 :=
  ⟨by decide, by decide,
    (drop_body_runs_exactly_once "5" [.AddCloser failingCloser, .AddFunc flushFunc]
      [.Close, .ctxDone, .timer, .selectTimeout, .Close] .signal
      (by decide) (by decide)).2.2.1⟩

/-- C2: whatever closers and functions are registered before the first trigger, in
any order and with any behaviour of their `Close` (nil, an error, never returning),
the calls made by the shutdown sequence are, in every continuation of the schedule,
exactly those registrations: the closers in order followed by the functions in order,
a permutation of the registrations with the same length and the same number of
occurrences of each, one goroutine for each. The return of a closer with an error
only marks its goroutine finished, writes one log line and decrements the wait
group: the error reaches no caller and no other action is affected. -/
theorem every_registration_invoked_exactly_once (gt : String) (es₁ es₂ : List Event)
    (t : Event) (h₁ : ∀ e ∈ es₁, e.isTrigger = false) (ht : t.isTrigger = true) :
    (run (NewCloser gt) (es₁ ++ t :: es₂)).invoked =
      (closersOf (registrations es₁)).map Job.closer ++
        (funcsOf (registrations es₁)).map Job.func ∧
    (run (NewCloser gt) (es₁ ++ t :: es₂)).invoked.Perm (registrations es₁) ∧
    (run (NewCloser gt) (es₁ ++ t :: es₂)).invoked.length = (registrations es₁).length ∧
    (∀ j : Job, (run (NewCloser gt) (es₁ ++ t :: es₂)).invoked.count j =
      (registrations es₁).count j) ∧
    (run (NewCloser gt) (es₁ ++ t :: es₂)).goroutines.map Prod.fst =
      (run (NewCloser gt) (es₁ ++ t :: es₂)).invoked ∧
    (∀ (i : Nat) (label msg : String),
      (run (NewCloser gt) (es₁ ++ t :: es₂)).goroutines[i]? =
        some (.closer ⟨label, .returnsError msg⟩, false) →
      step (run (NewCloser gt) (es₁ ++ t :: es₂)) (.jobReturns i) =
        some { run (NewCloser gt) (es₁ ++ t :: es₂) with
          goroutines := (run (NewCloser gt) (es₁ ++ t :: es₂)).goroutines.set i
            (.closer ⟨label, .returnsError msg⟩, true)
          logged := (run (NewCloser gt) (es₁ ++ t :: es₂)).logged ++
            ["failed to close: " ++ msg]
          wg := (run (NewCloser gt) (es₁ ++ t :: es₂)).wg - 1 }) := by
  obtain ⟨a1, _, a3, a4⟩ := after_first_trigger gt es₁ t h₁ ht
  have hne : (run (NewCloser gt) (es₁ ++ [t])).once ≠ .fresh := by rw [a1]; simp
  obtain ⟨_, f2, _, f4⟩ := run_frame _ es₂ hne
  rw [← run_snoc_cons] at f2 f4
  have hinv := f2.trans a3
  have hperm := started_perm (registrations es₁)
  refine ⟨hinv, ?_, ?_, ?_, ?_, ?_⟩
  · rw [hinv]; exact hperm
  · rw [hinv]; exact hperm.length_eq
  · intro j
    rw [hinv]
    exact hperm.count_eq j
  · rw [f4, a4, f2]
  · intro i label msg hg
    simp [step, hg, Job.returns, Job.errorLog]

/-- C2 on a failing closer, a hanging closer and a function: three registrations,
three calls, also after the failing closer has returned its error. -/
theorem every_registration_invoked_exactly_once_witness :
    (∀ e ∈ [Event.AddCloser failingCloser, Event.AddFunc flushFunc,
      Event.AddCloser hangingCloser], e.isTrigger = false) ∧
    Event.Close.isTrigger = true ∧
    (run (NewCloser "5") ([.AddCloser failingCloser, .AddFunc flushFunc,
      .AddCloser hangingCloser] ++ .Close :: [.jobReturns 0, .jobReturns 2])).invoked =
      [.closer failingCloser, .closer hangingCloser, .func flushFunc] :=
  ⟨by decide, by decide,
    (every_registration_invoked_exactly_once "5"
      [.AddCloser failingCloser, .AddFunc flushFunc, .AddCloser hangingCloser]
      [.jobReturns 0, .jobReturns 2] .Close (by decide) (by decide)).1⟩

/-- A closer that fails does not keep the sequence from its graceful end: with a
failing closer and a function registered, both are called, the error is logged, and
after both calls have returned the graceful branch concludes the sequence. -/
theorem failing_closer_graceful_example :
    (run (NewCloser "5") [.AddCloser failingCloser, .AddFunc flushFunc, .Close,
      .jobReturns 0, .jobReturns 1, .wgWait, .selectGraceful]).once = .complete ∧
    (run (NewCloser "5") [.AddCloser failingCloser, .AddFunc flushFunc, .Close,
      .jobReturns 0, .jobReturns 1, .wgWait, .selectGraceful]).invoked =
      [.closer failingCloser, .func flushFunc] ∧
    (run (NewCloser "5") [.AddCloser failingCloser, .AddFunc flushFunc, .Close,
      .jobReturns 0, .jobReturns 1, .wgWait, .selectGraceful]).logged =
      ["waiting before terminate or end up earlier if funcs are ready",
       "failed to close: connection reset", "jobs are gracefully closed"] := by
  decide

/-- At the `select`, a ready branch always gets its send through. -/
theorem sendDone_of_running (s : Closer) (line : String) (hI : Inv s)
    (ho : s.once = .running) :
    sendDone s line = some { s with
      logged := s.logged ++ [line]
      done := 1
      doneSends := 1
      locked := false
      once := .complete } := by
  obtain ⟨_, h2, _⟩ := hI.running ho
  have hc := hI.chan
  have hd : s.done = 0 := by omega
  simp [sendDone, hd, h2]

/-- No value is sent before the first trigger. -/
theorem doneSends_of_no_trigger (gt : String) (es : List Event)
    (h : ∀ e ∈ es, e.isTrigger = false) :
    (run (NewCloser gt) es).doneSends = 0 ∧ (run (NewCloser gt) es).done = 0 := by
  obtain ⟨k1, _, _⟩ := fresh_phase (NewCloser gt) es (Inv_NewCloser gt) rfl h
  have hI := Inv_reachable gt es
  obtain ⟨_, h2, _⟩ := hI.fresh k1
  have hc := hI.chan
  exact ⟨h2, by omega⟩

/-- C3: in every schedule of a `Closer`, no value has been sent on `done` while there
has been no trigger, and none while the shutdown sequence has not concluded; once it
has concluded exactly one value has been sent, by whichever branch of the `select`
was taken; at no time have two been sent or does the channel hold more than one, so a
later trigger sends nothing; and when the `select` has a ready branch its send goes
through at once, the channel of capacity 1 being empty. -/
theorem done_fired_exactly_once (gt : String) (es : List Event) :
    ((∀ e ∈ es, e.isTrigger = false) →
      (run (NewCloser gt) es).doneSends = 0 ∧ (run (NewCloser gt) es).done = 0) ∧
    ((run (NewCloser gt) es).once ≠ .complete →
      (run (NewCloser gt) es).doneSends = 0 ∧ (run (NewCloser gt) es).done = 0) ∧
    ((run (NewCloser gt) es).once = .complete → (run (NewCloser gt) es).doneSends = 1) ∧
    (run (NewCloser gt) es).doneSends ≤ 1 ∧
    (run (NewCloser gt) es).done ≤ 1 ∧
    ((run (NewCloser gt) es).once = .running →
      (run (NewCloser gt) es).chGracefulJobClose = true →
      ∃ s', step (run (NewCloser gt) es) .selectGraceful = some s' ∧
        s'.once = .complete ∧ s'.doneSends = 1 ∧ s'.done = 1) ∧
    ((run (NewCloser gt) es).once = .running →
      (run (NewCloser gt) es).chTimeoutJobClose = true →
      ∃ s', step (run (NewCloser gt) es) .selectTimeout = some s' ∧
        s'.once = .complete ∧ s'.doneSends = 1 ∧ s'.done = 1) ∧
    (∀ t : Event, t.isTrigger = true → (run (NewCloser gt) es).once = .complete →
      ((step (run (NewCloser gt) es) t).getD (run (NewCloser gt) es)).doneSends = 1) := by
  have hI := Inv_reachable gt es
  have hc := hI.chan
  have hle : (run (NewCloser gt) es).doneSends ≤ 1 := by
    cases ho : (run (NewCloser gt) es).once with
    | fresh => rw [(hI.fresh ho).2.1]; omega
    | running => rw [(hI.running ho).2.1]; omega
    | complete => rw [(hI.complete ho).2.1]
  refine ⟨doneSends_of_no_trigger gt es, ?_, fun ho => (hI.complete ho).2.1, hle,
    by omega, ?_, ?_, ?_⟩
  · intro ho
    cases ho' : (run (NewCloser gt) es).once with
    | fresh =>
      have := (hI.fresh ho').2.1
      exact ⟨this, by omega⟩
    | running =>
      have := (hI.running ho').2.1
      exact ⟨this, by omega⟩
    | complete => exact absurd ho' ho
  · intro ho hg
    have hst : step (run (NewCloser gt) es) .selectGraceful =
        sendDone (run (NewCloser gt) es) "jobs are gracefully closed" := by
      simp [step, ho, hg]
    rw [hst, sendDone_of_running _ _ hI ho]
    exact ⟨_, rfl, rfl, rfl, rfl⟩
  · intro ho hg
    have hst : step (run (NewCloser gt) es) .selectTimeout =
        sendDone (run (NewCloser gt) es) "jobs are not closed due to timeout" := by
      simp [step, ho, hg]
    rw [hst, sendDone_of_running _ _ hI ho]
    exact ⟨_, rfl, rfl, rfl, rfl⟩
  · intro t ht ho
    have hne : (run (NewCloser gt) es).once ≠ .fresh := by rw [ho]; simp
    rw [(later_trigger _ t hne ht).2.2.2.2.1]
    exact (hI.complete ho).2.1

/-- C3 on a schedule whose timer has delivered: the body waits at the `select`, the
timeout branch is ready, and its send goes through, the first and only one. -/
theorem done_fired_exactly_once_witness :
    (run (NewCloser "5") [.AddCloser hangingCloser, .Close, .timer]).once = .running ∧
    (run (NewCloser "5") [.AddCloser hangingCloser, .Close, .timer]).chTimeoutJobClose
      = true ∧
    (∃ s', step (run (NewCloser "5") [.AddCloser hangingCloser, .Close, .timer])
        .selectTimeout = some s' ∧
      s'.once = .complete ∧ s'.doneSends = 1 ∧ s'.done = 1) :=
  ⟨by decide, by decide,
    (done_fired_exactly_once "5" [.AddCloser hangingCloser, .Close, .timer]).2.2.2.2.2.2.1
      (by decide) (by decide)⟩

/-- C4 as stated fails: on a `Closer` whose shutdown sequence has concluded, the first
of two calls of `Wait` returns and the second cannot: the channel is empty. Of the two
calls one has returned. -/
theorem second_Wait_blocks_counterexample :
    concluded.once = .complete ∧ concluded.doneSends = 1 ∧
    (step concluded .Wait).isSome = true ∧
    step (run concluded [.Wait]) .Wait = none ∧
    (run concluded [.Wait, .Wait]).received = 1 ∧
    (run concluded [.Wait, .Wait]).done = 0 := by
  decide

/-- C4, amended: in every schedule of a `Closer` at most one receive from `done` (a
call of `Wait` or a receive on the channel of `GetWaitChan`) ever completes. When the
shutdown sequence has concluded and nothing has been received, the next `Wait`
returns; once one receive has completed, in every continuation of the schedule a
further `Wait` cannot return: no second value is ever sent. -/
theorem exactly_one_Wait_returns (gt : String) (es : List Event) :
    (run (NewCloser gt) es).received ≤ 1 ∧
    ((run (NewCloser gt) es).once = .complete → (run (NewCloser gt) es).received = 0 →
      ∃ s', step (run (NewCloser gt) es) .Wait = some s' ∧ s'.received = 1 ∧
        s'.done = 0) ∧
    ((run (NewCloser gt) es).received = 1 →
      ∀ es' : List Event, step (run (run (NewCloser gt) es) es') .Wait = none) := by
  have hI := Inv_reachable gt es
  have hc := hI.chan
  have hle : ∀ es : List Event, (run (NewCloser gt) es).doneSends ≤ 1 := by
    intro es
    have hI := Inv_reachable gt es
    cases ho : (run (NewCloser gt) es).once with
    | fresh => rw [(hI.fresh ho).2.1]; omega
    | running => rw [(hI.running ho).2.1]; omega
    | complete => rw [(hI.complete ho).2.1]
  have h1 := hle es
  refine ⟨by omega, ?_, ?_⟩
  · intro ho hr
    have hs := (hI.complete ho).2.1
    have hd : (run (NewCloser gt) es).done = 1 := by omega
    have hst : step (run (NewCloser gt) es) .Wait =
        some { run (NewCloser gt) es with
          done := (run (NewCloser gt) es).done - 1
          received := (run (NewCloser gt) es).received + 1 } := by
      simp [step, hd]
    rw [hst]
    exact ⟨_, rfl, by simp [hr], by simp [hd]⟩
  · intro hr es'
    have hmono := received_mono_run (run (NewCloser gt) es) es'
    rw [← run_append] at hmono ⊢
    have hI' := Inv_reachable gt (es ++ es')
    have hc' := hI'.chan
    have h1' := hle (es ++ es')
    have hd : (run (NewCloser gt) (es ++ es')).done = 0 := by omega
    simp [step, hd]

/-- C4, amended, after a graceful conclusion and one `Wait`: one receive has
completed, and a second `Wait` cannot return even after further triggers. -/
theorem exactly_one_Wait_returns_witness :
    (run (NewCloser "5") [.Close, .wgWait, .selectGraceful, .Wait]).received = 1 ∧
    step (run (run (NewCloser "5") [.Close, .wgWait, .selectGraceful, .Wait])
      [.Close, .signal, .timer]) .Wait = none :=
  ⟨by decide,
    (exactly_one_Wait_returns "5" [.Close, .wgWait, .selectGraceful, .Wait]).2.2
      (by decide) [.Close, .signal, .timer]⟩

/-- C5: whenever the body of `drop` waits at its `select`, whatever actions were
started and whether or not they ever return, the timer can deliver; once it has, the
timeout branch is taken in one step that writes the timeout line, sends the
completion value and finishes the `sync.Once`, leaving every goroutine and the wait
group as they are (nothing is awaited, nothing is cancelled). While some action is
still running the graceful branch cannot be taken, and with an action that never
returns it can never be taken in any continuation. The two steps `timer`,
`selectTimeout` conclude the sequence from every such state, and an action that was
running then can still return afterwards. -/
theorem timeout_branch_concludes (gt : String) (es : List Event)
    (h : (run (NewCloser gt) es).once = .running) :
    (run (run (NewCloser gt) es) [.timer]).chTimeoutJobClose = true ∧
    (run (run (NewCloser gt) es) [.timer]).once = .running ∧
    ((run (NewCloser gt) es).chTimeoutJobClose = true →
      step (run (NewCloser gt) es) .selectTimeout =
        some { run (NewCloser gt) es with
          logged := (run (NewCloser gt) es).logged ++ ["jobs are not closed due to timeout"]
          done := 1
          doneSends := 1
          locked := false
          once := .complete }) ∧
    (0 < unfinished (run (NewCloser gt) es).goroutines →
      step (run (NewCloser gt) es) .selectGraceful = none ∧
      step (run (NewCloser gt) es) .wgWait = none) ∧
    ((∃ g ∈ (run (NewCloser gt) es).goroutines, g.1.returns = false) →
      ∀ es' : List Event,
        step (run (run (NewCloser gt) es) es') .selectGraceful = none ∧
        0 < unfinished (run (run (NewCloser gt) es) es').goroutines) ∧
    (run (run (NewCloser gt) es) [.timer, .selectTimeout]).once = .complete ∧
    (run (run (NewCloser gt) es) [.timer, .selectTimeout]).doneSends = 1 ∧
    (run (run (NewCloser gt) es) [.timer, .selectTimeout]).done = 1 ∧
    (run (run (NewCloser gt) es) [.timer, .selectTimeout]).goroutines =
      (run (NewCloser gt) es).goroutines ∧
    (run (run (NewCloser gt) es) [.timer, .selectTimeout]).wg =
      (run (NewCloser gt) es).wg ∧
    (∀ (i : Nat) (j : Job), (run (NewCloser gt) es).goroutines[i]? = some (j, false) →
      j.returns = true →
      (step (run (run (NewCloser gt) es) [.timer, .selectTimeout]) (.jobReturns i)).isSome
        = true) := by
  have hI := Inv_reachable gt es
  have hne : (run (NewCloser gt) es).once ≠ .fresh := by rw [h]; simp
  -- a running action keeps the graceful channel open
  have hopen : ∀ s : Closer, Inv s → 0 < unfinished s.goroutines →
      step s .selectGraceful = none ∧ step s .wgWait = none := by
    intro s hs hu
    have hw := hs.counter
    have hg : s.chGracefulJobClose = false := by
      cases hcl : s.chGracefulJobClose with
      | false => rfl
      | true =>
        have := hs.graceful hcl
        omega
    have hwg : s.wg ≠ 0 := by omega
    simp [step, hg, hwg]
  -- the state after the timer step
  have htimer : (run (run (NewCloser gt) es) [.timer]).chTimeoutJobClose = true ∧
      (run (run (NewCloser gt) es) [.timer]).once = .running ∧
      (run (run (NewCloser gt) es) [.timer]).goroutines =
        (run (NewCloser gt) es).goroutines ∧
      (run (run (NewCloser gt) es) [.timer]).wg = (run (NewCloser gt) es).wg := by
    rw [run_cons, run_nil]
    cases hto : (run (NewCloser gt) es).chTimeoutJobClose with
    | false => simp [step, h, hto]
    | true => simp [step, h, hto]
  have hI1 : Inv (run (run (NewCloser gt) es) [.timer]) := Inv_run _ _ hI
  have hsel : ∀ s : Closer, Inv s → s.once = .running → s.chTimeoutJobClose = true →
      step s .selectTimeout = some { s with
        logged := s.logged ++ ["jobs are not closed due to timeout"]
        done := 1
        doneSends := 1
        locked := false
        once := .complete } := by
    intro s hs ho hto
    have hst : step s .selectTimeout = sendDone s "jobs are not closed due to timeout" := by
      simp [step, ho, hto]
    rw [hst]
    exact sendDone_of_running _ _ hs ho
  have hfin : run (run (NewCloser gt) es) [.timer, .selectTimeout] =
      { run (run (NewCloser gt) es) [.timer] with
        logged := (run (run (NewCloser gt) es) [.timer]).logged ++
          ["jobs are not closed due to timeout"]
        done := 1
        doneSends := 1
        locked := false
        once := .complete } := by
    have : run (run (NewCloser gt) es) [.timer, .selectTimeout] =
        run (run (run (NewCloser gt) es) [.timer]) [.selectTimeout] := rfl
    rw [this, run_cons, run_nil, hsel _ hI1 htimer.2.1 htimer.1]
    rfl
  refine ⟨htimer.1, htimer.2.1, hsel _ hI h, hopen _ hI, ?_, ?_, ?_, ?_, ?_, ?_, ?_⟩
  · rintro ⟨g, hg, hret⟩ es'
    have hI' : Inv (run (run (NewCloser gt) es) es') := Inv_run _ _ hI
    have hmap := (run_frame _ es' hne).2.2.2
    have hmem : g.1 ∈ (run (run (NewCloser gt) es) es').goroutines.map Prod.fst := by
      rw [hmap]
      exact List.mem_map_of_mem _ hg
    obtain ⟨g', hg', hfst⟩ := List.mem_map.mp hmem
    have hflag : g'.2 = false := by
      cases hb : g'.2 with
      | false => rfl
      | true =>
        have := hI'.finished g' hg' hb
        rw [hfst, hret] at this
        exact absurd this (by simp)
    have hpos : 0 < unfinished (run (run (NewCloser gt) es) es').goroutines := by
      unfold unfinished
      apply List.length_pos_of_mem (a := g')
      simp [List.mem_filter, hg', hflag]
    exact ⟨(hopen _ hI' hpos).1, hpos⟩
  · rw [hfin]
  · rw [hfin]
  · rw [hfin]
  · rw [hfin]; exact htimer.2.2.1
  · rw [hfin]; exact htimer.2.2.2
  · intro i j hg hr
    have hg' : (run (run (NewCloser gt) es) [.timer, .selectTimeout]).goroutines[i]? =
        some (j, false) := by
      rw [hfin]
      show (run (run (NewCloser gt) es) [.timer]).goroutines[i]? = some (j, false)
      rw [htimer.2.2.1]
      exact hg
    simp [step, hg', hr]

/-- C5 with a closer that never returns: after the trigger the sequence waits at the
`select`, the graceful branch is closed to it, and the timer concludes it with the
hanging goroutine left as it is. -/
theorem timeout_branch_concludes_witness :
    (run (NewCloser "1") [.AddCloser hangingCloser, .AddFunc flushFunc, .Close,
      .jobReturns 1]).once = .running ∧
    (run (run (NewCloser "1") [.AddCloser hangingCloser, .AddFunc flushFunc, .Close,
      .jobReturns 1]) [.timer, .selectTimeout]).once = .complete ∧
    (run (run (NewCloser "1") [.AddCloser hangingCloser, .AddFunc flushFunc, .Close,
      .jobReturns 1]) [.timer, .selectTimeout]).goroutines =
      [(.closer hangingCloser, false), (.func flushFunc, true)] :=
  ⟨by decide,
    (timeout_branch_concludes "1" [.AddCloser hangingCloser, .AddFunc flushFunc, .Close,
      .jobReturns 1] (by decide)).2.2.2.2.2.1,
    (timeout_branch_concludes "1" [.AddCloser hangingCloser, .AddFunc flushFunc, .Close,
      .jobReturns 1] (by decide)).2.2.2.2.2.2.2.2.1⟩

end libcloser
